import Mathlib

/-!
Verification of the context-flow incremental transcript indexer.

This file gives a shallow embedding, in Lean 4, of the parts of the
`context_flow_server` package that the verified properties talk about:

* `db.py` — the relational store (`messages` with an AUTOINCREMENT id,
  `sessions`, `indexed_files`, message/session tag tables) and the
  project-directory name decoder;
* `indexer.py` — the incremental file scanner (`index_all`), the byte-offset
  resume logic of `_parse_file`, the session merge of `_upsert_session`, the
  id-range computation feeding the auto-tagger, and the `reindex` clearing
  phase;
* `tagger.py` — the message-level and session-level auto-tag rule sets and the
  idempotent tag insertion;
* `server.py` — the query layer (`search_history`, `get_conversation`,
  `list_sessions`, `tag_message`) limit handling and session/slug resolution.

The store is modelled as explicit Lean data (lists of rows); SQLite behaviour
that the code relies on is modelled explicitly and documented where it
appears: AUTOINCREMENT row-id assignment via `sqlite_sequence`, `LIMIT`
semantics, `INSERT OR IGNORE`, and per-`commit` transaction boundaries.
Where a definition is reconstructed from the specification because its
source lives in a module that is not part of the sources here (the
relay server's validation helpers and the tag-table DDL), its doc comment
says so explicitly.
-/

/-! ## Data model (db.py SCHEMA) -/

/-- One row of the `messages` table (db.py lines 29-37).  `id` is the
`INTEGER PRIMARY KEY AUTOINCREMENT` column. -/
structure MsgRow where
  id : Nat
  session_id : String
  role : String
  content : String
  timestamp : String
  model : Option String
deriving DecidableEq, Repr

/-- One row of the `sessions` table (db.py lines 18-27). -/
structure SessionRow where
  session_id : String
  project_dir : Option String
  slug : Option String
  first_timestamp : Option String
  last_timestamp : Option String
  message_count : Nat
  git_branch : Option String
  cwd : Option String
deriving DecidableEq, Repr

/-- One row of the `indexed_files` table (db.py lines 11-16). -/
structure FileRow where
  path : String
  size : Nat
  byte_offset : Nat
deriving DecidableEq, Repr

/-- The store.  `messageTags` rows are `(message_id, tag, source)` and
`sessionTags` rows are `(session_id, tag, source)`.  `seq` models the
`sqlite_sequence` counter for the `messages` table: because `id` is declared
`AUTOINCREMENT`, SQLite assigns every new row an id strictly larger than any
id that has ever existed in the table, and `DELETE FROM messages` does not
reset this counter. -/
structure Store where
  messages : List MsgRow
  seq : Nat
  sessions : List SessionRow
  messageTags : List (Nat × String × String)
  sessionTags : List (String × String × String)
  indexedFiles : List FileRow
deriving DecidableEq, Repr

/-- `COALESCE(MAX(id), 0)` over the messages table (indexer.py lines 297-299). -/
def maxMessageId (rows : List MsgRow) : Nat :=
  rows.foldl (fun acc m => Nat.max acc m.id) 0

/-- The rowid SQLite assigns to the next insert into an `AUTOINCREMENT`
table: one more than the larger of the `sqlite_sequence` entry and the
largest rowid currently in the table. -/
def sqliteNextId (st : Store) : Nat :=
  Nat.max st.seq (maxMessageId st.messages) + 1

/-! ## decode_project_dir (db.py lines 96-107) -/

/-- `decode_project_dir`: if the name does not start with `-` it is returned
unchanged; otherwise the leading `-` is dropped, a `/` is prepended, and every
remaining `-` becomes `/`. -/
def decode_project_dir (s : String) : String :=
  if s.data.head? = some '-' then
    String.mk ('/' :: (s.data.drop 1).map (fun c => if c = '-' then '/' else c))
  else s

/-- Modelled from the spec: the encoder is external to this repository
(Claude Code's project-directory naming).  Per the spec and the docstring
example in db.py (`/home/matt/...` ↦ `-home-matt-...`), every path separator
is replaced by the substitute character `-`; for an absolute path the leading
separator becomes the reserved leading prefix character. -/
def encode_project_dir (p : String) : String :=
  String.mk (p.data.map (fun c => if c = '/' then '-' else c))

/-! ## Line-level parsing (_parse_file, indexer.py lines 137-210)

A file is a list of bytes.  `splitLines` mirrors Python's line iteration over
a binary file: chunks are closed after each `\n` byte (byte 10), and a final
chunk without a terminating newline is kept.  (The terminator itself is not
kept in the chunk; Python keeps it but immediately removes it with
`.strip()`, which `stripBytes` models.) -/

def splitLines : List Nat → List (List Nat)
  | [] => []
  | b :: rest =>
    if b = 10 then [] :: splitLines rest
    else
      match splitLines rest with
      | [] => [[b]]
      | l :: ls => (b :: l) :: ls

/-- ASCII whitespace bytes, the set stripped by Python's `bytes.strip()`. -/
def isWsByte (b : Nat) : Bool :=
  b = 9 || b = 10 || b = 11 || b = 12 || b = 13 || b = 32

/-- `raw_line.strip()` on bytes. -/
def stripBytes (l : List Nat) : List Nat :=
  ((l.dropWhile isWsByte).reverse.dropWhile isWsByte).reverse

/-- A message record produced by `_extract_from_entry` before insertion:
the fields bound at indexer.py lines 302-308 minus the id. -/
structure PreMsg where
  session_id : String
  role : String
  content : String
  timestamp : String
  model : Option String
deriving DecidableEq, Repr

/-- Per-line step of `_parse_file` (indexer.py lines 158-208): strip the
line, skip it when it is empty or does not start with `{` (byte 123),
otherwise hand it to the entry pipeline — UTF-8 decoding, JSON parsing,
the `sessionId` guard and `_extract_from_entry` — which is abstracted as
the function `extract` (a fixed per-line procedure applied uniformly, so
the offset bookkeeping proved below holds for any such procedure). -/
def lineMessages (extract : List Nat → List PreMsg) (line : List Nat) : List PreMsg :=
  let l := stripBytes line
  if l.head? = some 123 then extract l else []

/-- `_parse_file filepath byte_offset`: seek to `off` and process each
remaining line, concatenating the extracted messages in order
(`messages.extend(extracted)`). -/
def parse_file (extract : List Nat → List PreMsg) (bs : List Nat) (off : Nat) :
    List PreMsg :=
  ((bs.drop off |> splitLines).map (lineMessages extract)).flatten

/-- The per-file decision of `index_all` (indexer.py lines 259-283), given
the stored `(size, byte_offset)` row if any and the current file size:
`none` means skip (unchanged); `some off` means parse from byte `off`. -/
def scanDecision (stored : Option (Nat × Nat)) (curSize : Nat) : Option Nat :=
  match stored with
  | some (size, off) =>
    if curSize = size then none
    else if curSize > size then some off
    else some 0
  | none => some 0

/-- The `indexed_files` upsert after scanning a file (indexer.py lines
319-327): both `size` and `byte_offset` are set to the current file size,
since parsing consumed the file to its end. -/
def updateIndexedFileRow (path : String) (fileSize : Nat) : FileRow :=
  { path := path, size := fileSize, byte_offset := fileSize }

/-! ## Auto-tag rules (tagger.py) -/

/-- Substring test, Python's `needle in hay` on strings. -/
def listContainsSeq (needle : List Char) : List Char → Bool
  | [] => needle.isEmpty
  | l@(_ :: t) => needle.isPrefixOf l || listContainsSeq needle t

/-- `sub in hay` for Lean strings. -/
def strContains (hay sub : String) : Bool :=
  listContainsSeq sub.data hay.data

/-- Python's `str.lower()` (the tag-rule phrases are all ASCII). -/
def lowerStr (s : String) : String :=
  String.mk (s.data.map Char.toLower)

/-- `SUBSTANTIAL_THRESHOLD` (tagger.py line 8). -/
def SUBSTANTIAL_THRESHOLD : Nat := 500

/-- The characters matched by `\s` in Python's `re`. -/
def isPySpace (c : Char) : Bool :=
  c = ' ' || c = '\t' || c = '\n' || c = '\r' || c = '\x0b' || c = '\x0c'

/-- Does `##`, then one or more whitespace, then `Phase`, then one more
whitespace character start at the head of `cs`?  This is the anchored form of
the pattern `##\s+Phase\s` of `_check_plan`; since `Phase` cannot start with
a whitespace character, matching the maximal whitespace run is equivalent to
the regex's backtracking. -/
def phaseHeadingAt (cs : List Char) : Bool :=
  match cs with
  | '#' :: '#' :: rest =>
    let rest2 := rest.dropWhile isPySpace
    !(rest.takeWhile isPySpace).isEmpty &&
      "Phase".data.isPrefixOf rest2 &&
      (match (rest2.drop 5).head? with
       | some c => isPySpace c
       | none => false)
  | _ => false

/-- Anchored form of `##\s+Implementation` of `_check_plan`. -/
def implHeadingAt (cs : List Char) : Bool :=
  match cs with
  | '#' :: '#' :: rest =>
    let rest2 := rest.dropWhile isPySpace
    !(rest.takeWhile isPySpace).isEmpty && "Implementation".data.isPrefixOf rest2
  | _ => false

/-- `re.search`: does the anchored predicate match at some position? -/
def searchPos (p : List Char → Bool) : List Char → Bool
  | [] => p []
  | l@(_ :: t) => p l || searchPos p t

/-- `_check_review_ux`. -/
def checkReviewUx (role content : String) : Bool :=
  role == "assistant" && decide (SUBSTANTIAL_THRESHOLD ≤ content.length) &&
    (["ux review", "usability review", "user experience review",
      "user experience audit"].any (fun ph => strContains (lowerStr content) ph))

/-- `_check_review_architecture`. -/
def checkReviewArchitecture (role content : String) : Bool :=
  role == "assistant" && decide (SUBSTANTIAL_THRESHOLD ≤ content.length) &&
    (["architecture review", "system design review",
      "architectural review", "architecture audit"].any
      (fun ph => strContains (lowerStr content) ph))

/-- `_check_review_code`. -/
def checkReviewCode (role content : String) : Bool :=
  role == "assistant" && decide (SUBSTANTIAL_THRESHOLD ≤ content.length) &&
    (["code review", "code quality review"].any
      (fun ph => strContains (lowerStr content) ph))

/-- `_check_review_security`. -/
def checkReviewSecurity (role content : String) : Bool :=
  role == "assistant" && decide (SUBSTANTIAL_THRESHOLD ≤ content.length) &&
    (["security review", "security audit", "vulnerability assessment"].any
      (fun ph => strContains (lowerStr content) ph))

/-- `_check_plan`. -/
def checkPlan (role content : String) : Bool :=
  if role == "plan" then true
  else
    role == "assistant" && decide (SUBSTANTIAL_THRESHOLD ≤ content.length) &&
      searchPos phaseHeadingAt content.data && searchPos implHeadingAt content.data

/-- `_check_decision`. -/
def checkDecision (role content : String) : Bool :=
  role == "assistant" && decide (SUBSTANTIAL_THRESHOLD ≤ content.length) &&
    (["decided to ", "decision:", "the approach is",
      "chose ", " over ", "trade-off"].any
      (fun ph => strContains (lowerStr content) ph))

/-- `_check_investigation`. -/
def checkInvestigation (role content : String) : Bool :=
  role == "assistant" && decide (SUBSTANTIAL_THRESHOLD ≤ content.length) &&
    (["root cause", "the issue was", "found the bug",
      "the problem was", "debugging revealed"].any
      (fun ph => strContains (lowerStr content) ph))

/-- `_check_insight` (no length gate, case-sensitive marker). -/
def checkInsight (role content : String) : Bool :=
  role == "assistant" && strContains content "★ Insight"

/-- `MESSAGE_TAG_RULES` (tagger.py lines 89-98), in source order. -/
def MESSAGE_TAG_RULES : List (String × (String → String → Bool)) :=
  [("review:ux", checkReviewUx),
   ("review:architecture", checkReviewArchitecture),
   ("review:code", checkReviewCode),
   ("review:security", checkReviewSecurity),
   ("plan", checkPlan),
   ("decision", checkDecision),
   ("investigation", checkInvestigation),
   ("insight", checkInsight)]

/-- `_check_has_browser`, over `(role, content)` rows. -/
def checkHasBrowser (msgs : List (String × String)) : Bool :=
  msgs.any (fun m => m.1 == "tool_summary" &&
    (strContains m.2 "[browser_" || strContains (lowerStr m.2) "playwright"))

/-- `_check_has_tests`. -/
def checkHasTests (msgs : List (String × String)) : Bool :=
  msgs.any (fun m => m.1 == "tool_summary" &&
    (["pytest", "vitest", "npm run test", "npm run check"].any
      (fun kw => strContains (lowerStr m.2) kw)))

/-- `_check_has_deploy`. -/
def checkHasDeploy (msgs : List (String × String)) : Bool :=
  msgs.any (fun m => m.1 == "tool_summary" &&
    (["ssh ", "docker ", "deploy", "rsync"].any
      (fun kw => strContains (lowerStr m.2) kw)))

/-- `_check_has_planning`. -/
def checkHasPlanning (msgs : List (String × String)) : Bool :=
  msgs.any (fun m => m.1 == "plan")

/-- `SESSION_TAG_RULES` (tagger.py lines 138-143). -/
def SESSION_TAG_RULES : List (String × (List (String × String) → Bool)) :=
  [("has:browser", checkHasBrowser),
   ("has:tests", checkHasTests),
   ("has:deploy", checkHasDeploy),
   ("has:planning", checkHasPlanning)]

/-! ## Tag insertion -/

/-- Is there already a row for this `(subject, tag)` pair, any source? -/
def hasTagPair {σ : Type} [DecidableEq σ]
    (rows : List (σ × String × String)) (subj : σ) (tag : String) : Bool :=
  rows.any (fun r => r.1 == subj && r.2.1 == tag)

/-- `INSERT OR IGNORE` into a tag table.  Modelled from the spec: the DDL of
`message_tags`/`session_tags` lives in the relay server's `db.py`, which is
not among the sources here (the `SCHEMA` in the present `db.py` predates the
tag tables, while `tagger.py`, `indexer.py` and `server.py` all insert into
them with `INSERT OR IGNORE`); per the spec the tables are unique on
`(subject, tag)` regardless of `source`, so an insert for a pair that already
has a row — under either source — is a no-op, never an error. -/
def insertTagRow {σ : Type} [DecidableEq σ]
    (rows : List (σ × String × String)) (subj : σ) (tag source : String) :
    List (σ × String × String) :=
  if hasTagPair rows subj tag then rows else rows ++ [(subj, tag, source)]

/-! ## Store mutation (indexer.py, server.py) -/

/-- `auto_tag_messages` (tagger.py lines 146-172): fetch the rows whose ids
are in `ids`, evaluate every message rule on each, and `INSERT OR IGNORE`
the resulting `(message_id, tag, 'auto')` rows. -/
def auto_tag_messages (st : Store) (ids : List Nat) : Store :=
  let rows := st.messages.filter (fun m => ids.contains m.id)
  let tags := rows.flatMap (fun m =>
    (MESSAGE_TAG_RULES.filter (fun r => r.2 m.role m.content)).map
      (fun r => (m.id, r.1, ("auto" : String))))
  { st with
    messageTags := tags.foldl (fun acc t => insertTagRow acc t.1 t.2.1 t.2.2)
      st.messageTags }

/-- `auto_tag_session` (tagger.py lines 175-195): fetch the session's
`tool_summary`/`plan` rows, evaluate the session rules, insert
`(session_id, tag, 'auto')` rows. -/
def auto_tag_session (st : Store) (sid : String) : Store :=
  let msgs := st.messages.filter (fun m =>
    m.session_id == sid && (m.role == "tool_summary" || m.role == "plan"))
  let pairs := msgs.map (fun m => (m.role, m.content))
  let tags := (SESSION_TAG_RULES.filter (fun r => r.2 pairs)).map
    (fun r => (sid, r.1, ("auto" : String)))
  { st with
    sessionTags := tags.foldl (fun acc t => insertTagRow acc t.1 t.2.1 t.2.2)
      st.sessionTags }

/-- Insert one message row, with SQLite assigning the AUTOINCREMENT id and
advancing `sqlite_sequence`. -/
def insertMessage (st : Store) (m : PreMsg) : Store :=
  let i := sqliteNextId st
  { st with
    messages := st.messages ++
      [{ id := i, session_id := m.session_id, role := m.role,
         content := m.content, timestamp := m.timestamp, model := m.model }],
    seq := i }

/-- `conn.executemany(INSERT INTO messages ...)` (indexer.py lines 302-308). -/
def insertMessages (st : Store) (ms : List PreMsg) : Store :=
  ms.foldl insertMessage st

/-- The per-file message block of `index_all` (indexer.py lines 294-312):
read `COALESCE(MAX(id), 0)`, insert the batch, compute
`new_ids = range(max_id_before + 1, max_id_before + 1 + len(messages))`,
and run the message auto-tagger over `new_ids`. -/
def processBatch (st : Store) (ms : List PreMsg) : Store :=
  let maxIdBefore := maxMessageId st.messages
  let st1 := insertMessages st ms
  let newIds := List.range' (maxIdBefore + 1) ms.length
  auto_tag_messages st1 newIds

/-! ## Session upsert (_upsert_session, indexer.py lines 358-402) -/

/-- The per-session metadata accumulated by `_parse_file` (lines 176-201) and
passed to `_upsert_session` as the `meta` dict. -/
structure SessionMeta where
  session_id : String
  project_dir : Option String
  slug : Option String
  first_timestamp : Option String
  last_timestamp : Option String
  message_count : Nat
  git_branch : Option String
  cwd : Option String
deriving DecidableEq, Repr

/-- `first_ts` computation (indexer.py lines 377-381): minimum when both the
stored and the incoming timestamp are present, the stored one when only it is
present, otherwise the incoming one. -/
def merge_first_ts (existing incoming : Option String) : Option String :=
  match existing, incoming with
  | some e, some n => some (min e n)
  | some e, none => some e
  | none, n => n

/-- `last_ts` computation (indexer.py lines 383-387), dually with `max`. -/
def merge_last_ts (existing incoming : Option String) : Option String :=
  match existing, incoming with
  | some e, some n => some (max e n)
  | some e, none => some e
  | none, n => n

/-- The `UPDATE sessions SET ...` of `_upsert_session` (lines 389-402):
`COALESCE(?, col)` takes the incoming value when it is non-null and keeps the
stored one otherwise; `message_count = message_count + ?`. -/
def mergeSessionRow (ex : SessionRow) (meta : SessionMeta) : SessionRow :=
  { session_id := ex.session_id
    project_dir := meta.project_dir.orElse (fun _ => ex.project_dir)
    slug := meta.slug.orElse (fun _ => ex.slug)
    first_timestamp := merge_first_ts ex.first_timestamp meta.first_timestamp
    last_timestamp := merge_last_ts ex.last_timestamp meta.last_timestamp
    message_count := ex.message_count + meta.message_count
    git_branch := meta.git_branch.orElse (fun _ => ex.git_branch)
    cwd := meta.cwd.orElse (fun _ => ex.cwd) }

/-- A fresh session row inserted when no row with this id exists
(indexer.py lines 365-374). -/
def sessionRowOfMeta (meta : SessionMeta) : SessionRow :=
  { session_id := meta.session_id, project_dir := meta.project_dir,
    slug := meta.slug, first_timestamp := meta.first_timestamp,
    last_timestamp := meta.last_timestamp,
    message_count := meta.message_count,
    git_branch := meta.git_branch, cwd := meta.cwd }

/-- `_upsert_session`: fetch the existing row (`session_id` is the primary
key), insert when absent, otherwise update it with the merged values. -/
def upsert_session (st : Store) (meta : SessionMeta) : Store :=
  match st.sessions.find? (fun s => s.session_id == meta.session_id) with
  | none => { st with sessions := st.sessions ++ [sessionRowOfMeta meta] }
  | some ex =>
    { st with sessions := st.sessions.map (fun s =>
        if s.session_id == meta.session_id then mergeSessionRow ex meta else s) }

/-! ## Full reindex (indexer.py lines 458-486) -/

/-- The clearing transaction of `reindex` (lines 465-472): delete all message
tags, the automatic session tags, all messages, all sessions, and all
file-offset rows.  `DELETE FROM` does not reset the `sqlite_sequence` entry
of the AUTOINCREMENT `messages` table, so `seq` is preserved.  (The FTS
rebuild touches only the derived full-text index, which is not part of the
model.) -/
def reindexClear (st : Store) : Store :=
  { st with
    messageTags := []
    sessionTags := st.sessionTags.filter (fun r => !(r.2.2 == "auto"))
    messages := []
    sessions := []
    indexedFiles := [] }

/-! ## Transaction boundaries (indexer.py, server.py)

Each mutating entry point commits at specific points: `index_all` executes
all of its statements on one connection and commits once (line 336);
`tag_message`/`tag_session` insert and commit once; `reindex` commits three
times — after the clearing deletes (line 472), inside the nested `index_all`
(line 336), and after re-applying the session markers (line 483).  A
sequence is modelled as the list of its transactions in commit order, and an
interruption at any point leaves exactly the state after some proper prefix
of them (SQLite rolls an unfinished transaction back). -/

/-- State after the first `k` committed transactions. -/
def prefixState (txns : List (Store → Store)) (k : Nat) (st : Store) : Store :=
  (txns.take k).foldl (fun s t => t s) st

/-- An incremental scan run (`index_all`) is one transaction, whatever work
`run` does inside it. -/
def scanRunTxns (run : Store → Store) : List (Store → Store) := [run]

/-- The store mutation of `tag_message` (server.py lines 299-303): insert
the `(message_id, tag, 'manual')` rows with `INSERT OR IGNORE`. -/
def manualTagMessageWrite (mid : Nat) (tags : List String) (st : Store) : Store :=
  { st with
    messageTags := tags.foldl (fun acc t => insertTagRow acc mid t "manual")
      st.messageTags }

/-- A manual tag write is one transaction. -/
def tagWriteTxns (mid : Nat) (tags : List String) : List (Store → Store) :=
  [manualTagMessageWrite mid tags]

/-- `reindex` is three transactions in commit order: the clear, the rebuild
scan run, and the marker re-application. -/
def reindexTxns (run markers : Store → Store) : List (Store → Store) :=
  [reindexClear, run, markers]

/-- `index_all` over a transcript root that contains no `.jsonl` files: every
loop body is vacuous, and the run commits the store unchanged. -/
def indexRunNoFiles : Store → Store := fun st => st

/-- `_apply_all_session_markers` when the marker directory holds no files:
no tag is applied. -/
def applyMarkersNone : Store → Store := fun st => st

/-! ## Query layer (server.py) -/

/-- SQLite `LIMIT` semantics, applied to the already-ordered result rows: a
negative limit means no limit, otherwise the first `limit` rows are kept
(so `LIMIT 0` yields no rows). -/
def sqlite_limit {α : Type} (limit : Int) (rows : List α) : List α :=
  if limit < 0 then rows else rows.take limit.toNat

/-- `search_history` (server.py lines 48-117): the rows matching the FTS
query and filters (abstracted as the predicate `sel`, in rank order),
with the caller-supplied `limit` bound directly to `LIMIT ?`. -/
def search_history (rows : List MsgRow) (sel : MsgRow → Bool)
    (limit : Int) : List MsgRow :=
  sqlite_limit limit (rows.filter sel)

/-- Insertion into a list sorted by the boolean relation `le`. -/
def insertSorted {α : Type} (le : α → α → Bool) (x : α) : List α → List α
  | [] => [x]
  | y :: ys => if le x y then x :: y :: ys else y :: insertSorted le x ys

/-- `ORDER BY` over a result set: sort by the boolean relation `le`. -/
def sortByBool {α : Type} (le : α → α → Bool) (l : List α) : List α :=
  l.foldr (insertSorted le) []

/-- SQL `ASC` ordering on a nullable TEXT column: `NULL` sorts first,
non-null values lexicographically. -/
def optLe (a b : Option String) : Bool :=
  match a, b with
  | none, _ => true
  | some _, none => false
  | some x, some y => decide (x ≤ y)

/-- `ORDER BY first_timestamp ASC` on session rows. -/
def sessTsLe (a b : SessionRow) : Bool :=
  optLe a.first_timestamp b.first_timestamp

/-- `ORDER BY timestamp ASC` on message rows. -/
def msgTsLe (a b : MsgRow) : Bool :=
  decide (a.timestamp ≤ b.timestamp)

/-- The session resolution of `get_conversation` (server.py lines 142-165):
first try an exact `session_id` match (the primary-key `fetchone`); only when
none exists, collect every session with this slug ordered by
`first_timestamp ASC`; when that chain is empty the result is the structured
not-found value (`none` here, the `{"error": ...}` dict in the source). -/
def resolve_sessions (sessions : List SessionRow) (ident : String) :
    Option (List SessionRow) :=
  match sessions.find? (fun s => s.session_id == ident) with
  | some s => some [s]
  | none =>
    let chain := sortByBool sessTsLe
      (sessions.filter (fun s => s.slug == some ident))
    if chain.isEmpty then none else some chain

/-- The message page of `get_conversation` without `around_timestamp`
(server.py lines 196-204): messages of the resolved sessions, optionally
restricted to `roles`, `ORDER BY timestamp ASC`, with the caller-supplied
`limit` bound directly to `LIMIT ?`. -/
def get_conversation_page (msgs : List MsgRow) (sids : List String)
    (roles : Option (List String)) (limit : Int) : List MsgRow :=
  let filtered := msgs.filter (fun m =>
    sids.contains m.session_id &&
      (match roles with
       | none => true
       | some rs => rs.contains m.role))
  sqlite_limit limit (sortByBool msgTsLe filtered)

/-- `list_sessions` (server.py lines 215-272): sessions matching the filters
(abstracted as `pred`), `ORDER BY last_timestamp DESC`, with the
caller-supplied `limit` bound directly to `LIMIT ?`. -/
def list_sessions_q (sessions : List SessionRow) (pred : SessionRow → Bool)
    (limit : Int) : List SessionRow :=
  sqlite_limit limit
    (sortByBool (fun a b => optLe b.last_timestamp a.last_timestamp)
      (sessions.filter pred))

/-! ## Session-range parsing -/

/-- Error taxonomy of the session-range syntax: positions outside
`[1, chain length]` versus malformed input. -/
inductive RangeError where
  | outOfRange
  | invalid
deriving DecidableEq, Repr

/-- `str.split(sep)`: splitting an empty string yields one empty token. -/
def splitOnChar (sep : Char) : List Char → List (List Char)
  | [] => [[]]
  | c :: cs =>
    if c = sep then [] :: splitOnChar sep cs
    else
      match splitOnChar sep cs with
      | [] => [[c]]
      | l :: ls => (c :: l) :: ls

/-- `int(token)` restricted to the non-negative decimal forms the range
syntax accepts: a non-empty all-digit token. -/
def parseNatTok (cs : List Char) : Option Nat :=
  if !cs.isEmpty && cs.all Char.isDigit then
    some (cs.foldl (fun n c => n * 10 + (c.toNat - 48)) 0)
  else none

/-- One comma-separated token: either a single 1-based position or an
inclusive `low-high` range; a token that is not numeric, is empty, or has
`low > high` is invalid. -/
def parseRangeToken (t : List Char) : Except RangeError (List Nat) :=
  match splitOnChar '-' t with
  | [a] =>
    match parseNatTok a with
    | some n => .ok [n]
    | none => .error .invalid
  | [a, b] =>
    match parseNatTok a, parseNatTok b with
    | some lo, some hi =>
      if lo > hi then .error .invalid else .ok (List.range' lo (hi + 1 - lo))
    | _, _ => .error .invalid
  | _ => .error .invalid

/-- Modelled from the spec: `_parse_session_range` lives in the relay
server's `server.py`, which is not among the sources here (only its unit
tests are).  Per spec §6: the string is a comma-separated list of tokens,
each a single 1-based position or an inclusive `low-high` range; a malformed
token is an invalid-input error; any position `< 1` or `> chainLen` is an
out-of-range error; on success the deduplicated position set is returned as
0-based indices in ascending position order. -/
def parse_session_range (s : String) (chainLen : Nat) :
    Except RangeError (List Nat) :=
  match (splitOnChar ',' s.data).mapM parseRangeToken with
  | .error e => .error e
  | .ok lists =>
    let positions := lists.flatten
    if positions.all (fun p => decide (1 ≤ p) && decide (p ≤ chainLen)) then
      .ok ((List.range chainLen).filter (fun i => positions.contains (i + 1)))
    else .error .outOfRange

/-! ## Concrete inputs used by the closed theorems below -/

deriving instance DecidableEq for Except

/-- The empty store with a fresh sequence counter. -/
def emptyStore : Store :=
  { messages := [], seq := 0, sessions := [], messageTags := [],
    sessionTags := [], indexedFiles := [] }

/-- A store that has indexed exactly one message (so `sqlite_sequence` is 1). -/
def storeOneMsg : Store :=
  { messages := [{ id := 1, session_id := "s1", role := "user", content := "hi",
                   timestamp := "2026-01-01T00:00:00Z", model := none }],
    seq := 1, sessions := [], messageTags := [], sessionTags := [],
    indexedFiles := [] }

/-- An assistant message carrying the insight marker, so the `insight`
message rule fires on it. -/
def insightMsg : PreMsg :=
  { session_id := "s1", role := "assistant",
    content := "★ Insight: the cache key omitted the branch.",
    timestamp := "2026-01-02T00:00:00Z", model := some "m" }

/-- A session row whose slug is already set. -/
def sessRowAlpha : SessionRow :=
  { session_id := "s1", project_dir := some "/p", slug := some "alpha",
    first_timestamp := some "2026-01-01T00:00:00Z",
    last_timestamp := some "2026-01-02T00:00:00Z",
    message_count := 1, git_branch := some "main", cwd := some "/p" }

/-- Later-scan metadata for the same session carrying a different slug. -/
def metaBeta : SessionMeta :=
  { session_id := "s1", project_dir := some "/p", slug := some "beta",
    first_timestamp := some "2026-01-03T00:00:00Z",
    last_timestamp := some "2026-01-03T00:00:00Z",
    message_count := 2, git_branch := some "dev", cwd := some "/q" }

/-- A single indexed message row. -/
def msgHello : MsgRow :=
  { id := 1, session_id := "s1", role := "user", content := "Hello",
    timestamp := "2026-01-01T00:00:00Z", model := none }

/-- A session identified by `abc` whose slug `dup` collides with the
session id of `sessIdDup`. -/
def sessSlugDup : SessionRow :=
  { session_id := "abc", project_dir := none, slug := some "dup",
    first_timestamp := some "2026-01-01T00:00:00Z",
    last_timestamp := some "2026-01-01T01:00:00Z",
    message_count := 1, git_branch := none, cwd := none }

/-- A session whose id `dup` equals the slug of `sessSlugDup`. -/
def sessIdDup : SessionRow :=
  { session_id := "dup", project_dir := none, slug := some "other",
    first_timestamp := some "2026-01-02T00:00:00Z",
    last_timestamp := some "2026-01-02T01:00:00Z",
    message_count := 1, git_branch := none, cwd := none }

/-- A store holding one manual and one automatic session tag. -/
def storeWithTags : Store :=
  { messages := [], seq := 3, sessions := [],
    messageTags := [(1, "important", "manual")],
    sessionTags := [("s1", "ws", "manual"), ("s1", "has:tests", "auto")],
    indexedFiles := [] }

/-- A sample per-line extraction function for concrete evaluation. -/
def sampleExtract : List Nat → List PreMsg := fun l =>
  [{ session_id := "s1", role := "user",
     content := String.mk (l.map Char.ofNat), timestamp := "t", model := none }]

/-! ## Helper lemmas -/

theorem splitLines_ne_nil (bs : List Nat) (h : bs ≠ []) : splitLines bs ≠ [] := by
  match bs with
  | [] => exact absurd rfl h
  | b :: rest =>
    simp only [splitLines]
    split
    · simp
    · split <;> simp

theorem splitLines_cons (b : Nat) (rest : List Nat) :
    splitLines (b :: rest) =
      if b = 10 then [] :: splitLines rest
      else
        match splitLines rest with
        | [] => [[b]]
        | l :: ls => (b :: l) :: ls := rfl

theorem splitLines_cons_nl (rest : List Nat) :
    splitLines (10 :: rest) = [] :: splitLines rest := by
  rw [splitLines_cons, if_pos rfl]

theorem splitLines_cons_of_ne {b : Nat} (hb : b ≠ 10) (rest : List Nat) :
    splitLines (b :: rest) =
      match splitLines rest with
      | [] => [[b]]
      | l :: ls => (b :: l) :: ls := by
  rw [splitLines_cons, if_neg hb]

/-- Lines of a newline-terminated chunk followed by more bytes are the lines
of the chunk followed by the lines of the rest. -/
theorem splitLines_append (F S : List Nat) (hF : F.getLast? = some 10) :
    splitLines (F ++ S) = splitLines F ++ splitLines S := by
  induction F with
  | nil => simp at hF
  | cons b rest ih =>
    match rest, ih with
    | [], _ =>
      simp only [List.getLast?_singleton, Option.some.injEq] at hF
      subst hF
      simp [splitLines]
    | r :: rs, ih =>
      rw [List.getLast?_cons_cons] at hF
      have ih' := ih hF
      rw [List.cons_append] at ih'
      by_cases hb : b = 10
      · subst hb
        simp only [List.cons_append, splitLines_cons_nl]
        rw [ih']
      · have hne : splitLines (r :: rs) ≠ [] := splitLines_ne_nil _ (by simp)
        obtain ⟨l, ls, hls⟩ : ∃ l ls, splitLines (r :: rs) = l :: ls := by
          cases h : splitLines (r :: rs) with
          | nil => exact absurd h hne
          | cons l ls => exact ⟨l, ls, rfl⟩
        simp only [List.cons_append, splitLines_cons_of_ne hb]
        rw [ih', hls]
        simp [List.cons_append]

theorem mem_insertSorted {α : Type} (le : α → α → Bool) (x a : α) (l : List α) :
    a ∈ insertSorted le x l ↔ a = x ∨ a ∈ l := by
  induction l with
  | nil => simp [insertSorted]
  | cons y ys ih =>
    simp only [insertSorted]
    split
    · simp [or_comm, or_assoc, or_left_comm]
    · simp [ih]
      tauto

theorem pairwise_insertSorted {α : Type} (le : α → α → Bool)
    (htrans : ∀ a b c, le a b = true → le b c = true → le a c = true)
    (htot : ∀ a b, le a b = true ∨ le b a = true)
    (x : α) (l : List α) (h : l.Pairwise (fun a b => le a b = true)) :
    (insertSorted le x l).Pairwise (fun a b => le a b = true) := by
  induction l with
  | nil => simp [insertSorted]
  | cons y ys ih =>
    rw [List.pairwise_cons] at h
    obtain ⟨hy, hys⟩ := h
    simp only [insertSorted]
    split
    · rename_i hxy
      rw [List.pairwise_cons]
      refine ⟨?_, List.pairwise_cons.mpr ⟨hy, hys⟩⟩
      intro b hb
      rcases List.mem_cons.mp hb with hb | hb
      · subst hb; exact hxy
      · exact htrans _ _ _ hxy (hy b hb)
    · rename_i hxy
      rw [List.pairwise_cons]
      refine ⟨?_, ih hys⟩
      intro b hb
      rcases (mem_insertSorted le x b ys).mp hb with hb | hb
      · rcases htot x y with hcase | hcase
        · exact absurd hcase hxy
        · rw [hb]; exact hcase
      · exact hy b hb

theorem pairwise_sortByBool {α : Type} (le : α → α → Bool)
    (htrans : ∀ a b c, le a b = true → le b c = true → le a c = true)
    (htot : ∀ a b, le a b = true ∨ le b a = true) (l : List α) :
    (sortByBool le l).Pairwise (fun a b => le a b = true) := by
  induction l with
  | nil => simp [sortByBool]
  | cons y ys ih => exact pairwise_insertSorted le htrans htot y _ ih

theorem mem_sortByBool {α : Type} (le : α → α → Bool) (a : α) (l : List α) :
    a ∈ sortByBool le l ↔ a ∈ l := by
  induction l with
  | nil => simp [sortByBool]
  | cons y ys ih =>
    simp only [sortByBool] at ih ⊢
    rw [List.foldr_cons, mem_insertSorted, ih, List.mem_cons]

/-- Rows with a given `(subject, tag)` pair, any source. -/
def countTagPair {σ : Type} [DecidableEq σ]
    (rows : List (σ × String × String)) (subj : σ) (tag : String) : Nat :=
  (rows.filter (fun r => r.1 == subj && r.2.1 == tag)).length

theorem mem_insertTagRow {σ : Type} [DecidableEq σ]
    (rows : List (σ × String × String)) (subj : σ) (tag source : String)
    (r : σ × String × String) (h : r ∈ rows) :
    r ∈ insertTagRow rows subj tag source := by
  unfold insertTagRow
  split
  · exact h
  · exact List.mem_append_left _ h

theorem hasTagPair_insertTagRow {σ : Type} [DecidableEq σ]
    (rows : List (σ × String × String)) (subj : σ) (tag source : String) :
    hasTagPair (insertTagRow rows subj tag source) subj tag = true := by
  unfold insertTagRow
  split
  · assumption
  · unfold hasTagPair
    simp

theorem insertTagRow_idem {σ : Type} [DecidableEq σ]
    (rows : List (σ × String × String)) (subj : σ) (tag s1 s2 : String) :
    insertTagRow (insertTagRow rows subj tag s1) subj tag s2
      = insertTagRow rows subj tag s1 := by
  conv_lhs => rw [insertTagRow]
  rw [if_pos (hasTagPair_insertTagRow rows subj tag s1)]

theorem countTagPair_insert_of_absent {σ : Type} [DecidableEq σ]
    (rows : List (σ × String × String)) (subj : σ) (tag source : String)
    (h : countTagPair rows subj tag = 0) :
    countTagPair (insertTagRow rows subj tag source) subj tag = 1 := by
  have habs : hasTagPair rows subj tag = false := by
    unfold countTagPair at h
    rw [List.length_eq_zero] at h
    unfold hasTagPair
    rw [List.any_eq_false]
    intro r hr
    intro hcontra
    have : r ∈ rows.filter (fun r => r.1 == subj && r.2.1 == tag) :=
      List.mem_filter.mpr ⟨hr, hcontra⟩
    rw [h] at this
    exact List.not_mem_nil r this
  unfold insertTagRow
  rw [habs]
  simp only [Bool.false_eq_true, if_false]
  unfold countTagPair
  rw [List.filter_append, List.length_append]
  unfold countTagPair at h
  rw [h]
  simp

theorem optLe_trans (a b c : Option String) (h1 : optLe a b = true)
    (h2 : optLe b c = true) : optLe a c = true := by
  cases a <;> cases b <;> cases c <;> simp_all [optLe]
  exact le_trans h1 h2

theorem optLe_total (a b : Option String) : optLe a b = true ∨ optLe b a = true := by
  cases a <;> cases b <;> simp_all [optLe]
  exact le_total _ _

theorem sessTsLe_trans (a b c : SessionRow) (h1 : sessTsLe a b = true)
    (h2 : sessTsLe b c = true) : sessTsLe a c = true :=
  optLe_trans _ _ _ h1 h2

theorem sessTsLe_total (a b : SessionRow) :
    sessTsLe a b = true ∨ sessTsLe b a = true :=
  optLe_total _ _

/-! ## Claim theorems -/

/-- C1: the claim asserts that the id range computed by `index_all` from
`COALESCE(MAX(id), 0)` before an insert is exactly the range of ids the
insert receives, including on the first run after a full reindex.  This
theorem evaluates the code at the failing input: after a store that held one
message is cleared by `reindex`, the next run inserts one rule-matching
assistant message; AUTOINCREMENT assigns it id 2 (the `sqlite_sequence`
counter survives `DELETE FROM messages`), while the run computes the range
`[1]` from the now-empty table, so `auto_tag_messages` selects no rows and
the run applies no message tag — although tagging the actually-inserted id
would have produced the `insight` tag. -/
theorem c1_reindex_run_autotag_misses_inserted_range :
    (processBatch (reindexClear storeOneMsg) [insightMsg]).messages.map
        (fun m => m.id) = [2] ∧
    List.range' (maxMessageId (reindexClear storeOneMsg).messages + 1)
        [insightMsg].length = [1] ∧
    (processBatch (reindexClear storeOneMsg) [insightMsg]).messageTags = [] ∧
    (auto_tag_messages (insertMessages (reindexClear storeOneMsg) [insightMsg])
        [2]).messageTags = [(2, "insight", "auto")] := by
  decide

/-- C2 (counterexample): the claim asserts that every mutating sequence,
including a full reindex, leaves the pre-sequence store on interruption at
any point.  But `reindex` commits its clearing deletes before the rebuild
runs: interrupting it after the first of its three commits (here over an
empty transcript root and no markers) leaves a store different from the
pre-reindex one. -/
theorem c2_reindex_interrupt_counterexample :
    prefixState (reindexTxns indexRunNoFiles applyMarkersNone) 1 storeOneMsg
      ≠ storeOneMsg ∧
    1 < (reindexTxns indexRunNoFiles applyMarkersNone).length := by
  decide

/-- C2 (amended): an incremental scan run and a manual tag write are each a
single transaction, so an interruption anywhere inside them leaves the
pre-sequence store; a full reindex, however, is three transactions (clear,
rebuild run, marker re-application): an interruption before the first commit
leaves the pre-state, but one after the clear commit leaves the cleared
store, whatever the rebuild and marker steps would have done. -/
theorem c2_transaction_boundaries (run markers : Store → Store) (mid : Nat)
    (tags : List String) (st : Store) (k : Nat) :
    (k < (scanRunTxns run).length → prefixState (scanRunTxns run) k st = st) ∧
    (k < (tagWriteTxns mid tags).length →
      prefixState (tagWriteTxns mid tags) k st = st) ∧
    prefixState (reindexTxns run markers) 0 st = st ∧
    prefixState (reindexTxns run markers) 1 st = reindexClear st := by
  refine ⟨?_, ?_, rfl, rfl⟩
  · intro hk
    have : k = 0 := by simpa [scanRunTxns] using hk
    subst this
    rfl
  · intro hk
    have : k = 0 := by simpa [tagWriteTxns] using hk
    subst this
    rfl

theorem c2_transaction_boundaries_witness :
    prefixState (scanRunTxns indexRunNoFiles) 0 storeOneMsg = storeOneMsg ∧
    prefixState (tagWriteTxns 1 ["x"]) 0 storeOneMsg = storeOneMsg ∧
    prefixState (reindexTxns indexRunNoFiles applyMarkersNone) 0 storeOneMsg
      = storeOneMsg ∧
    prefixState (reindexTxns indexRunNoFiles applyMarkersNone) 1 storeOneMsg
      = reindexClear storeOneMsg :=
  ⟨(c2_transaction_boundaries indexRunNoFiles applyMarkersNone 1 ["x"]
      storeOneMsg 0).1 (by decide),
   (c2_transaction_boundaries indexRunNoFiles applyMarkersNone 1 ["x"]
      storeOneMsg 0).2.1 (by decide),
   (c2_transaction_boundaries indexRunNoFiles applyMarkersNone 1 ["x"]
      storeOneMsg 0).2.2.1,
   (c2_transaction_boundaries indexRunNoFiles applyMarkersNone 1 ["x"]
      storeOneMsg 0).2.2.2⟩

/-- C3: when a previously indexed file `F` (whose stored row records both
size and offset as `|F|`, and which — being line-structured JSONL — ends in a
newline) has grown to `F ++ S`, the scanner decides to resume at offset
`|F|`; the resumed parse yields exactly the messages of the appended bytes
`S`, and together with the first scan's messages this is exactly a full
parse of `F ++ S` — no earlier message is re-emitted and no appended message
is missed — for any per-line extraction procedure. -/
theorem c3_grown_file_resume_exact (extract : List Nat → List PreMsg)
    (path : String) (F S : List Nat)
    (hF : F.getLast? = some 10) (hS : S ≠ []) :
    scanDecision (some ((updateIndexedFileRow path F.length).size,
        (updateIndexedFileRow path F.length).byte_offset)) (F ++ S).length
      = some F.length ∧
    parse_file extract (F ++ S) F.length = parse_file extract S 0 ∧
    parse_file extract (F ++ S) 0
      = parse_file extract F 0 ++ parse_file extract S 0 := by
  have hlen : 0 < S.length := List.length_pos.mpr hS
  refine ⟨?_, ?_, ?_⟩
  · simp only [scanDecision, updateIndexedFileRow, List.length_append]
    rw [if_neg (by omega), if_pos (by omega)]
  · simp [parse_file, List.drop_left]
  · simp [parse_file, splitLines_append F S hF, List.map_append]

theorem c3_grown_file_resume_exact_witness :
    ([123, 10] : List Nat).getLast? = some 10 ∧
    ([123, 125, 10] : List Nat) ≠ [] ∧
    (scanDecision (some ((updateIndexedFileRow "p" ([123, 10] : List Nat).length).size,
        (updateIndexedFileRow "p" ([123, 10] : List Nat).length).byte_offset))
        (([123, 10] : List Nat) ++ [123, 125, 10]).length
      = some ([123, 10] : List Nat).length ∧
    parse_file sampleExtract (([123, 10] : List Nat) ++ [123, 125, 10])
        ([123, 10] : List Nat).length
      = parse_file sampleExtract [123, 125, 10] 0 ∧
    parse_file sampleExtract (([123, 10] : List Nat) ++ [123, 125, 10]) 0
      = parse_file sampleExtract [123, 10] 0 ++
        parse_file sampleExtract [123, 125, 10] 0) :=
  ⟨by decide, by decide,
   c3_grown_file_resume_exact sampleExtract "p" [123, 10] [123, 125, 10]
     (by decide) (by decide)⟩

/-- C4 (counterexample): the claim asserts a later scan never replaces an
already-set slug, branch, or cwd.  But `_upsert_session` binds the incoming
value first in `COALESCE(?, col)`: merging metadata with slug `beta` into a
session whose stored slug is `alpha` stores `beta`. -/
theorem c4_slug_lastwrite_counterexample :
    (upsert_session { emptyStore with sessions := [sessRowAlpha] }
        metaBeta).sessions.map (fun s => s.slug) = [some "beta"] ∧
    sessRowAlpha.slug = some "alpha" ∧ metaBeta.slug = some "beta" ∧
    some "beta" ≠ some "alpha" := by
  decide

/-- C4 (amended): when new entries merge into an existing session record,
first/last timestamps widen to the min/max of stored and new values (the
stored value is kept when the incoming one is null and vice versa),
message_count adds the new count, and each nullable field — slug, git
branch, cwd, project dir — adopts the newly observed value whenever it is
non-null, replacing any stored value (last-observed-wins); a null incoming
value never clears a stored one. -/
theorem c4_session_merge_amended (ex : SessionRow) (meta : SessionMeta) :
    (mergeSessionRow ex meta).message_count
        = ex.message_count + meta.message_count ∧
    (∀ a b, ex.first_timestamp = some a → meta.first_timestamp = some b →
      (mergeSessionRow ex meta).first_timestamp = some (min a b)) ∧
    (meta.first_timestamp = none →
      (mergeSessionRow ex meta).first_timestamp = ex.first_timestamp) ∧
    (ex.first_timestamp = none →
      (mergeSessionRow ex meta).first_timestamp = meta.first_timestamp) ∧
    (∀ a b, ex.last_timestamp = some a → meta.last_timestamp = some b →
      (mergeSessionRow ex meta).last_timestamp = some (max a b)) ∧
    (meta.last_timestamp = none →
      (mergeSessionRow ex meta).last_timestamp = ex.last_timestamp) ∧
    (ex.last_timestamp = none →
      (mergeSessionRow ex meta).last_timestamp = meta.last_timestamp) ∧
    (meta.slug = none → (mergeSessionRow ex meta).slug = ex.slug) ∧
    (∀ v, meta.slug = some v → (mergeSessionRow ex meta).slug = some v) ∧
    (meta.git_branch = none →
      (mergeSessionRow ex meta).git_branch = ex.git_branch) ∧
    (∀ v, meta.git_branch = some v →
      (mergeSessionRow ex meta).git_branch = some v) ∧
    (meta.cwd = none → (mergeSessionRow ex meta).cwd = ex.cwd) ∧
    (∀ v, meta.cwd = some v → (mergeSessionRow ex meta).cwd = some v) ∧
    (meta.project_dir = none →
      (mergeSessionRow ex meta).project_dir = ex.project_dir) ∧
    (∀ v, meta.project_dir = some v →
      (mergeSessionRow ex meta).project_dir = some v) := by
  refine ⟨rfl, ?_, ?_, ?_, ?_, ?_, ?_, ?_, ?_, ?_, ?_, ?_, ?_, ?_, ?_⟩
  · intro a b ha hb; simp [mergeSessionRow, merge_first_ts, ha, hb]
  · intro h
    cases hx : ex.first_timestamp <;>
      simp [mergeSessionRow, merge_first_ts, h, hx]
  · intro h; simp [mergeSessionRow, merge_first_ts, h]
  · intro a b ha hb; simp [mergeSessionRow, merge_last_ts, ha, hb]
  · intro h
    cases hx : ex.last_timestamp <;>
      simp [mergeSessionRow, merge_last_ts, h, hx]
  · intro h; simp [mergeSessionRow, merge_last_ts, h]
  · intro h; simp [mergeSessionRow, h, Option.orElse]
  · intro v h; simp [mergeSessionRow, h, Option.orElse]
  · intro h; simp [mergeSessionRow, h, Option.orElse]
  · intro v h; simp [mergeSessionRow, h, Option.orElse]
  · intro h; simp [mergeSessionRow, h, Option.orElse]
  · intro v h; simp [mergeSessionRow, h, Option.orElse]
  · intro h; simp [mergeSessionRow, h, Option.orElse]
  · intro v h; simp [mergeSessionRow, h, Option.orElse]

theorem c4_session_merge_amended_witness :
    (mergeSessionRow sessRowAlpha metaBeta).first_timestamp
      = some (min "2026-01-01T00:00:00Z" "2026-01-03T00:00:00Z") ∧
    (mergeSessionRow sessRowAlpha metaBeta).slug = some "beta" :=
  ⟨(c4_session_merge_amended sessRowAlpha metaBeta).2.1
      "2026-01-01T00:00:00Z" "2026-01-03T00:00:00Z" rfl rfl,
   (c4_session_merge_amended sessRowAlpha metaBeta).2.2.2.2.2.2.2.2.1
      "beta" rfl⟩

/-- C5: tag insertion is idempotent and unique per `(subject, tag)`
regardless of source: inserting the same association a second time, with the
same or a different source, is a no-op (the function is total, so no error
is possible), and starting from a store without the pair, two inserts leave
exactly one row for it. -/
theorem c5_tag_insert_idempotent (σ : Type) [DecidableEq σ]
    (rows : List (σ × String × String)) (subj : σ) (tag s1 s2 : String) :
    insertTagRow (insertTagRow rows subj tag s1) subj tag s2
      = insertTagRow rows subj tag s1 ∧
    (countTagPair rows subj tag = 0 →
      countTagPair (insertTagRow (insertTagRow rows subj tag s1) subj tag s2)
        subj tag = 1) := by
  refine ⟨insertTagRow_idem rows subj tag s1 s2, fun h => ?_⟩
  rw [insertTagRow_idem]
  exact countTagPair_insert_of_absent rows subj tag s1 h

theorem c5_tag_insert_idempotent_witness :
    insertTagRow (insertTagRow ([] : List (Nat × String × String)) 7 "plan"
        "auto") 7 "plan" "manual"
      = insertTagRow ([] : List (Nat × String × String)) 7 "plan" "auto" ∧
    countTagPair (insertTagRow (insertTagRow
        ([] : List (Nat × String × String)) 7 "plan" "auto") 7 "plan"
        "manual") 7 "plan" = 1 :=
  ⟨(c5_tag_insert_idempotent Nat [] 7 "plan" "auto" "manual").1,
   (c5_tag_insert_idempotent Nat [] 7 "plan" "auto" "manual").2 (by decide)⟩

/-- C6: the clearing phase of a full reindex removes every message-scoped
tag (manual or automatic) together with all messages, sessions and file
rows, while every session tag whose source is not `auto` survives unchanged
under the same session identifier and nothing new is added by the clear;
automatic session tags are removed (to be regenerated by the rebuild run,
whose tag inserts — final conjunct — never remove or alter an existing
row). -/
theorem c6_reindex_tag_frame (st : Store)
    (rows : List (String × String × String)) (sid tag src : String) :
    (reindexClear st).messageTags = [] ∧
    (∀ r ∈ st.sessionTags, r.2.2 ≠ "auto" → r ∈ (reindexClear st).sessionTags) ∧
    (∀ r ∈ st.sessionTags, r.2.2 = "auto" → r ∉ (reindexClear st).sessionTags) ∧
    (∀ r ∈ (reindexClear st).sessionTags, r ∈ st.sessionTags) ∧
    (∀ r ∈ rows, r ∈ insertTagRow rows sid tag src) ∧
    (reindexClear st).messages = [] ∧
    (reindexClear st).sessions = [] ∧
    (reindexClear st).indexedFiles = [] := by
  refine ⟨rfl, ?_, ?_, ?_, fun r h => mem_insertTagRow rows sid tag src r h,
    rfl, rfl, rfl⟩
  · intro r hr h
    exact List.mem_filter.mpr ⟨hr, by simpa using h⟩
  · intro r hr h hc
    have := (List.mem_filter.mp hc).2
    simp [h] at this
  · intro r hr
    exact (List.mem_filter.mp hr).1

theorem c6_reindex_tag_frame_witness :
    ("s1", "ws", "manual") ∈ (reindexClear storeWithTags).sessionTags ∧
    ("s1", "has:tests", "auto") ∉ (reindexClear storeWithTags).sessionTags :=
  ⟨(c6_reindex_tag_frame storeWithTags [] "x" "t" "auto").2.1
      ("s1", "ws", "manual") (by decide) (by decide),
   (c6_reindex_tag_frame storeWithTags [] "x" "t" "auto").2.2.1
      ("s1", "has:tests", "auto") (by decide) (by decide)⟩

/-- C7 (counterexample): the claim asserts decode∘encode is the identity on
every absolute path.  But a `-` inside a path segment is indistinguishable
from an encoded separator: `/a-b` encodes to `-a-b`, which decodes to
`/a/b`, not `/a-b`. -/
theorem c7_decode_encode_counterexample :
    decode_project_dir (encode_project_dir "/a-b") = "/a/b" ∧
    "/a/b" ≠ "/a-b" := by
  decide

/-- C7 (amended): for every absolute path none of whose characters is the
substitute character `-`, decoding the encoded project-directory name yields
back exactly the original path; and every name not beginning with the
reserved prefix decodes to itself unchanged. -/
theorem c7_decode_encode_amended :
    (∀ p : String, p.data.head? = some '/' → '-' ∉ p.data →
      decode_project_dir (encode_project_dir p) = p) ∧
    (∀ s : String, s.data.head? ≠ some '-' → decode_project_dir s = s) := by
  constructor
  · intro p hp hd
    obtain ⟨l⟩ := p
    cases l with
    | nil => simp at hp
    | cons c rest =>
      have hc : c = '/' := by simpa using hp
      subst hc
      have hrest : ∀ ch ∈ rest, ch ≠ '-' := by
        intro ch hch he
        exact hd (List.mem_cons_of_mem _ (he ▸ hch))
      have henc : encode_project_dir ⟨'/' :: rest⟩
          = ⟨'-' :: rest.map (fun c => if c = '/' then '-' else c)⟩ := by
        simp [encode_project_dir]
      rw [henc]
      have hdec : decode_project_dir
            ⟨'-' :: rest.map (fun c => if c = '/' then '-' else c)⟩
          = ⟨'/' :: (rest.map (fun c => if c = '/' then '-' else c)).map
              (fun c => if c = '-' then '/' else c)⟩ := by
        simp [decode_project_dir]
      rw [hdec]
      have hmap : (rest.map (fun c => if c = '/' then '-' else c)).map
          (fun c => if c = '-' then '/' else c) = rest := by
        rw [List.map_map]
        have hcong : ∀ ch ∈ rest,
            ((fun c => if c = '-' then '/' else c) ∘
              (fun c => if c = '/' then '-' else c)) ch = id ch := by
          intro ch hch
          by_cases h1 : ch = '/'
          · simp [h1]
          · simp [Function.comp, h1, if_neg (hrest ch hch)]
        rw [List.map_congr_left hcong, List.map_id]
      rw [hmap]
  · intro s hs
    unfold decode_project_dir
    rw [if_neg hs]

theorem c7_decode_encode_amended_witness :
    decode_project_dir (encode_project_dir "/home/matt") = "/home/matt" ∧
    decode_project_dir "plain" = "plain" :=
  ⟨c7_decode_encode_amended.1 "/home/matt" (by decide) (by decide),
   c7_decode_encode_amended.2 "plain" (by decide)⟩

/-- C8: session-range parsing accepts comma-separated tokens that are single
1-based positions or inclusive low-high ranges; every successful parse is a
strictly ascending, deduplicated list of 0-based indices below the chain
length; positions outside `[1, chain length]` give the out-of-range error,
and non-numeric, empty, or reversed tokens give the invalid-input error —
with the claim's concrete examples (`"4"` over 6 ↦ `{3}`, `"1,3-5"` over 6 ↦
`{0,2,3,4}`) evaluated. -/
theorem c8_session_range_parsing :
    (∀ (chainLen : Nat) (s : String) (l : List Nat),
      parse_session_range s chainLen = .ok l →
        l.Pairwise (· < ·) ∧ ∀ i ∈ l, i < chainLen) ∧
    parse_session_range "4" 6 = .ok [3] ∧
    parse_session_range "1,3-5" 6 = .ok [0, 2, 3, 4] ∧
    parse_session_range "3,3,3" 5 = .ok [2] ∧
    parse_session_range "7" 6 = .error .outOfRange ∧
    parse_session_range "0" 6 = .error .outOfRange ∧
    parse_session_range "5-3" 6 = .error .invalid ∧
    parse_session_range "" 6 = .error .invalid ∧
    parse_session_range "abc" 6 = .error .invalid ∧
    parse_session_range "-1" 6 = .error .invalid := by
  refine ⟨?_, by decide, by decide, by decide, by decide, by decide, by decide,
    by decide, by decide, by decide⟩
  intro L s l h
  unfold parse_session_range at h
  cases hm : (splitOnChar ',' s.data).mapM parseRangeToken with
  | error e => rw [hm] at h; cases h
  | ok lists =>
    rw [hm] at h
    simp only at h
    split at h
    · have hl : l = (List.range L).filter
          (fun i => lists.flatten.contains (i + 1)) := by
        injection h with h'
        exact h'.symm
      subst hl
      constructor
      · exact List.Pairwise.sublist (List.filter_sublist _)
          (List.pairwise_lt_range L)
      · intro i hi
        exact List.mem_range.mp (List.mem_filter.mp hi).1
    · cases h

theorem c8_session_range_parsing_witness :
    List.Pairwise (· < ·) [3] ∧ ∀ i ∈ ([3] : List Nat), i < 6 :=
  c8_session_range_parsing.1 6 "4" [3] (by decide)

/-- C9 (counterexample): the claim asserts every caller-supplied limit is
clamped into `[1, max]`, so that limit 0 behaves as limit 1 and no limit
yields a zero-capped result set.  But the server binds the raw limit to
`LIMIT ?`: a search with limit 0 over a store with one matching message
returns nothing, while limit 1 returns the message. -/
theorem c9_limit_clamp_counterexample :
    search_history [msgHello] (fun _ => true) 0 = [] ∧
    search_history [msgHello] (fun _ => true) 1 = [msgHello] ∧
    ([] : List MsgRow) ≠ [msgHello] := by
  decide

/-- C9 (amended): in these query operations the caller-supplied limit is
applied to the query unclamped, with SQLite `LIMIT` semantics: limit 0
yields an empty result set, a negative limit yields every matching row
(unbounded), and a non-negative limit caps the result length at that value;
no clamping into `[1, max]` occurs. -/
theorem c9_limit_passthrough_amended (msgs : List MsgRow)
    (sel : MsgRow → Bool) (sessions : List SessionRow)
    (pred : SessionRow → Bool) (sids : List String)
    (roles : Option (List String)) (n : Int) :
    search_history msgs sel 0 = [] ∧
    (n < 0 → ∀ m ∈ msgs, sel m = true → m ∈ search_history msgs sel n) ∧
    (0 ≤ n → (search_history msgs sel n).length ≤ n.toNat) ∧
    list_sessions_q sessions pred 0 = [] ∧
    (n < 0 → ∀ s ∈ sessions, pred s = true →
      s ∈ list_sessions_q sessions pred n) ∧
    (0 ≤ n → (list_sessions_q sessions pred n).length ≤ n.toNat) ∧
    get_conversation_page msgs sids roles 0 = [] ∧
    (0 ≤ n → (get_conversation_page msgs sids roles n).length ≤ n.toNat) := by
  refine ⟨?_, ?_, ?_, ?_, ?_, ?_, ?_, ?_⟩
  · simp [search_history, sqlite_limit]
  · intro hn m hm hsel
    simp only [search_history, sqlite_limit, if_pos hn]
    exact List.mem_filter.mpr ⟨hm, hsel⟩
  · intro hn
    simp only [search_history, sqlite_limit, if_neg (not_lt.mpr hn)]
    rw [List.length_take]
    exact min_le_left _ _
  · simp [list_sessions_q, sqlite_limit]
  · intro hn s hs hp
    simp only [list_sessions_q, sqlite_limit, if_pos hn]
    exact (mem_sortByBool _ _ _).mpr (List.mem_filter.mpr ⟨hs, hp⟩)
  · intro hn
    simp only [list_sessions_q, sqlite_limit, if_neg (not_lt.mpr hn)]
    rw [List.length_take]
    exact min_le_left _ _
  · simp [get_conversation_page, sqlite_limit]
  · intro hn
    simp only [get_conversation_page, sqlite_limit, if_neg (not_lt.mpr hn)]
    rw [List.length_take]
    exact min_le_left _ _

theorem c9_limit_passthrough_amended_witness :
    search_history [msgHello] (fun _ => true) 0 = [] ∧
    msgHello ∈ search_history [msgHello] (fun _ => true) (-1) ∧
    (search_history [msgHello] (fun _ => true) 2).length ≤ (2 : Int).toNat :=
  ⟨(c9_limit_passthrough_amended [msgHello] (fun _ => true) [] (fun _ => true)
      [] none (-1)).1,
   (c9_limit_passthrough_amended [msgHello] (fun _ => true) [] (fun _ => true)
      [] none (-1)).2.1 (by decide) msgHello (by decide) (by decide),
   (c9_limit_passthrough_amended [msgHello] (fun _ => true) [] (fun _ => true)
      [] none 2).2.2.1 (by decide)⟩

/-- C10: in conversation retrieval, an input equal to an existing session
identifier always resolves to that single session — even when other sessions
share that string as their slug; slug-chain resolution, returning exactly
the sessions carrying the slug in ascending first-timestamp order, is
reached only when no session has that exact identifier; and an input
matching neither yields the structured not-found result. -/
theorem c10_conversation_resolution (sessions : List SessionRow)
    (ident : String) :
    ((∃ s ∈ sessions, s.session_id = ident) →
      ∃ s, resolve_sessions sessions ident = some [s] ∧ s ∈ sessions ∧
        s.session_id = ident) ∧
    ((∀ s ∈ sessions, s.session_id ≠ ident) →
      ∀ l, resolve_sessions sessions ident = some l →
        (∀ s ∈ l, s ∈ sessions ∧ s.slug = some ident) ∧
        (∀ s ∈ sessions, s.slug = some ident → s ∈ l) ∧
        l.Pairwise (fun a b => sessTsLe a b = true)) ∧
    ((∀ s ∈ sessions, s.session_id ≠ ident ∧ s.slug ≠ some ident) →
      resolve_sessions sessions ident = none) := by
  refine ⟨?_, ?_, ?_⟩
  · rintro ⟨s, hs, hid⟩
    have hsome : (sessions.find? (fun s => s.session_id == ident)).isSome :=
      List.find?_isSome.mpr ⟨s, hs, by simp [hid]⟩
    obtain ⟨s0, hs0⟩ := Option.isSome_iff_exists.mp hsome
    refine ⟨s0, ?_, List.mem_of_find?_eq_some hs0,
      by simpa using List.find?_some hs0⟩
    unfold resolve_sessions
    rw [hs0]
  · intro hno l hl
    have hfind : sessions.find? (fun s => s.session_id == ident) = none := by
      rw [List.find?_eq_none]
      intro s hs
      simpa using hno s hs
    unfold resolve_sessions at hl
    rw [hfind] at hl
    simp only at hl
    split at hl
    · cases hl
    · have hle : l = sortByBool sessTsLe
          (sessions.filter (fun s => s.slug == some ident)) := by
        injection hl with h
        exact h.symm
      subst hle
      refine ⟨?_, ?_, ?_⟩
      · intro s hsl
        have := (mem_sortByBool _ _ _).mp hsl
        have hm := List.mem_filter.mp this
        exact ⟨hm.1, by simpa using hm.2⟩
      · intro s hs hslug
        exact (mem_sortByBool _ _ _).mpr
          (List.mem_filter.mpr ⟨hs, by simp [hslug]⟩)
      · exact pairwise_sortByBool _ sessTsLe_trans sessTsLe_total _
  · intro hboth
    have hfind : sessions.find? (fun s => s.session_id == ident) = none := by
      rw [List.find?_eq_none]
      intro s hs
      simpa using (hboth s hs).1
    have hfilt : sessions.filter (fun s => s.slug == some ident) = [] := by
      rw [List.filter_eq_nil_iff]
      intro s hs
      simpa using (hboth s hs).2
    unfold resolve_sessions
    rw [hfind, hfilt]
    rfl

theorem c10_conversation_resolution_witness :
    resolve_sessions [sessSlugDup, sessIdDup] "zzz" = none :=
  (c10_conversation_resolution [sessSlugDup, sessIdDup] "zzz").2.2 (by decide)
